import Mathlib

/-
Shallow embedding of the cashflow report controller
(server/controllers/finance/reports/cashflow/index.js).

Modelling conventions:
* Money amounts (`debit_equiv`, `credit_equiv`, balances) are rationals.
* Calendar dates that the controller manipulates as `Date`/moment objects
  are day numbers (`Int`, days since 1970-01-01, which was a Thursday);
  moment's default locale starts weeks on Sunday, so the weekday of day
  `d` is `(d + 4) % 7` with Sunday = 0.
* Dates that the document pipeline manipulates as 'YYYY-MM-DD' strings and
  re-parses componentwise (`getDate`, `getMonth`, `getYear`) are `DateYMD`
  records; JS `getMonth()` is `month - 1`, `getDate()` is `day`,
  `getYear()` is `year - 1900`, so componentwise equality coincides.
* Database results (period table rows, ledger rows, opening balances) are
  inputs to the modelled functions: the SQL itself is an external
  collaborator.
* JS objects used as string-keyed maps become total functions initialised
  to the neutral value; in the modelled pipeline every key is written
  before it is read, so the `undefined` cases of the source never arise.
-/

namespace Cashflow

/-- Calendar date as the document pipeline sees it after
`Moment(...).format('YYYY-MM-DD')`: year, month (1-12), day (1-31). -/
structure DateYMD where
  year : Int
  month : Nat
  day : Nat
deriving DecidableEq

/-- Period record. Calendar periods (table `period`) carry `id`; weekly
periods (built by `getWeeks`) carry `week`. A field the source would leave
`undefined` on the other shape is 0 here. `start_date`/`end_date` are day
numbers. -/
structure Period where
  id : Nat := 0
  week : Nat := 0
  start_date : Int
  end_date : Int
deriving DecidableEq

/-- One row of `queryIncomeExpense` (general ledger grouped by trans_id):
only the fields the modelled functions read. -/
structure Posting where
  trans_date : Int
  period_id : Nat
  debit_equiv : Rat
  credit_equiv : Rat
  currency_id : Nat
  origin_id : Nat
  transactionType : String
deriving DecidableEq

/-- Modelled from the spec: `lib/errors/BadRequest` (not among the staged
files) wraps a client-facing HTTP 400 error carrying a description and a
translatable code. -/
structure BadRequestE where
  description : String
  code : String
  status : Nat := 400
deriving DecidableEq

/-- The `BadRequest('Cashbox is missing', 'ERRORS.BAD_REQUEST')` thrown when
`params.account_id` is falsy. -/
def cashboxMissing : BadRequestE :=
  { description := "Cashbox is missing", code := "ERRORS.BAD_REQUEST" }

/-- The `BadRequest('Periods not found due to a bad date interval',
'ERRORS.BAD_DATE_INTERVAL')` thrown when the resolved period list is empty. -/
def badDateInterval : BadRequestE :=
  { description := "Periods not found due to a bad date interval"
    code := "ERRORS.BAD_DATE_INTERVAL" }

/-- Request query parameters used by the two processing functions.
`account_id` is `none` when the query string lacks the parameter;
`dateFrom`/`dateTo` are already normalised day numbers (the source runs
them through `Moment(...).format('YYYY-MM-DD')`). -/
structure Params where
  account_id : Option String := none
  dateFrom : Int
  dateTo : Int
  weekly : Bool := false

/-- JS truthiness test `!params.account_id`: true for an absent parameter
and for the empty string. -/
def accountIdMissing : Option String → Bool
  | none => true
  | some s => s = ""

/-- Day-of-week with Sunday = 0 (moment's default locale):
day 0 = 1970-01-01 was a Thursday. -/
def dayOfWeek (d : Int) : Int := (d + 4) % 7

/-- Moment's `startOf('week')` at day granularity. -/
def startOfWeek (d : Int) : Int := d - dayOfWeek d

/-- Day number of a civil date (days since 1970-01-01), used only to name
concrete dates in theorems. -/
def civilToDay (y : Int) (m : Nat) (d : Nat) : Int :=
  let y' : Int := if m ≤ 2 then y - 1 else y
  let era : Int := (if 0 ≤ y' then y' else y' - 399) / 400
  let yoe : Int := y' - era * 400
  let mp : Int := ((m : Int) + 9) % 12
  let doy : Int := (153 * mp + 2) / 5 + (d : Int) - 1
  let doe : Int := yoe * 365 + yoe / 4 - yoe / 100 + doy
  era * 146097 + doe - 719468

/-- Loop body of `getWeeks`: the do-while loop pushes the week containing
`first` (`startOf('week')` .. `endOf('week')`, 6 days later at day
granularity), advances `first` by 7 days, and repeats while
`first <= dateTo`.  The source's `week : inc + 1` uses the constant
`inc = 0`, so every pushed record has `week = 1`.  Structural recursion on
a fuel counter replaces the do-while; `getWeeks` supplies enough fuel that
the `0` case is never reached. -/
def getWeeksAux : Nat → Int → Int → List Period
  | 0, _, _ => []
  | fuel + 1, first, dateTo =>
    let ws := startOfWeek first
    let w : Period := { week := 1, start_date := ws, end_date := ws + 6 }
    let next := ws + 7
    if next ≤ dateTo then w :: getWeeksAux fuel next dateTo else [w]

/-- `getWeeks(dateFrom, dateTo)`: successive week windows starting from the
week containing `dateFrom`, continuing while the next window start is
`<= dateTo`. -/
def getWeeks (dateFrom dateTo : Int) : List Period :=
  getWeeksAux ((dateTo - dateFrom).toNat + 2) dateFrom dateTo

/-- The mutation `glb.periods[0].start_date = params.dateFrom` performed by
`processingWeekCashflow` after the empty check. -/
def setHeadStart (d : Int) : List Period → List Period
  | [] => []
  | p :: rest => { p with start_date := d } :: rest

/-- One element of the `groupByPeriod` output: a period with its bucket of
postings. -/
structure PeriodFlows where
  period : Period
  flows : List Posting
deriving DecidableEq

/-- `groupByPeriod(periods, flows, weekly)`: for each period, the postings
that fall in it — weekly mode tests `trans_date` against the inclusive
`[start_date, end_date]` window, calendar mode tests `p.id === f.period_id`. -/
def groupByPeriod (periods : List Period) (flows : List Posting) (weekly : Bool) :
    List PeriodFlows :=
  periods.map fun p =>
    { period := p
      flows := flows.filter fun f =>
        if weekly then
          decide (f.trans_date ≤ p.end_date) && decide (p.start_date ≤ f.trans_date)
        else p.id == f.period_id }

/-- One element of the `groupingIncomeExpenseByPeriod` output. -/
structure PeriodGroup where
  period : Period
  incomes : List Posting
  expenses : List Posting
deriving DecidableEq

/-- `groupingIncomeExpenseByPeriod`: within each period bucket, incomes are
the postings with `debit_equiv > 0` and expenses those with
`credit_equiv > 0`, two independent filters over the same list. -/
def groupingIncomeExpenseByPeriod (periodicFlows : List PeriodFlows) :
    List PeriodGroup :=
  periodicFlows.map fun pf =>
    { period := pf.period
      incomes := pf.flows.filter fun posting => decide (posting.debit_equiv > 0)
      expenses := pf.flows.filter fun posting => decide (posting.credit_equiv > 0) }

/-- Result shape `{ openningBalance, flows }` of the two processing
functions (the opening balance reduced to its numeric `balance` field). -/
structure CashflowResult where
  openningBalance : Rat
  flows : List PeriodGroup

/-- `processingCashflowReport(params)`.  External collaborators appear as
arguments: `periods` is the result of the `getPeriods` SQL query, `balance`
the result of `AccountsExtra.getOpeningBalanceForDate` (absent when the
query resolves nothing falsy), `rows` the result of `queryIncomeExpense`.
The missing-cashbox check runs before anything else; the empty-period check
runs before the balance and ledger queries are consumed; calendar grouping
passes no `weekly` flag (undefined, hence falsy). -/
def processingCashflowReport (params : Params) (periods : List Period)
    (balance : Option Rat) (rows : List Posting) :
    Except BadRequestE CashflowResult :=
  if accountIdMissing params.account_id then
    .error cashboxMissing
  else if periods.length = 0 then
    .error badDateInterval
  else
    let openningBalance : Rat := match balance with | some b => b | none => 0
    .ok { openningBalance
          flows := groupingIncomeExpenseByPeriod (groupByPeriod periods rows false) }

/-- `processingWeekCashflow(params)`.  The periods are computed locally by
`getWeeks`; after the empty check the first period's `start_date` is
overwritten with `params.dateFrom`; grouping receives `params.weekly`. -/
def processingWeekCashflow (params : Params) (balance : Option Rat)
    (rows : List Posting) : Except BadRequestE CashflowResult :=
  if accountIdMissing params.account_id then
    .error cashboxMissing
  else
    let periods := getWeeks params.dateFrom params.dateTo
    if periods.length = 0 then
      .error badDateInterval
    else
      let periods := setHeadStart params.dateFrom periods
      let openningBalance : Rat := match balance with | some b => b | none => 0
      .ok { openningBalance
            flows := groupingIncomeExpenseByPeriod
              (groupByPeriod periods rows params.weekly) }

/-- One element pushed on `session.summationIncome[period]` /
`session.summationExpense[period]` by `groupingResult`. -/
structure Entry where
  transfer_type : String
  currency_id : Nat
  value : Rat
deriving DecidableEq

/-- The inner `reduce` of `groupingResult` over incomes: total `debit_equiv`
of the postings sharing `origin` (accumulator seeded with 0,
`b.debit_equiv + a` when `b.origin_id === origin`). -/
def sumDebitByOrigin (incomes : List Posting) (origin : Nat) : Rat :=
  incomes.foldl (fun a b => if b.origin_id == origin then b.debit_equiv + a else a) 0

/-- The inner `reduce` of `groupingResult` over expenses: total
`credit_equiv` of the postings sharing `origin`. -/
def sumCreditByOrigin (expenses : List Posting) (origin : Nat) : Rat :=
  expenses.foldl (fun a b => if b.origin_id == origin then b.credit_equiv + a else a) 0

/-- The income `forEach`/push of `groupingResult`: one entry per posting
with a truthy `origin_id` (0 models the falsy case), carrying the posting's
`transactionType` and `currency_id` and the summed `debit_equiv` of its
origin. -/
def rawSummationIncome (incomes : List Posting) : List Entry :=
  incomes.filterMap fun item =>
    if item.origin_id ≠ 0 then
      some { transfer_type := item.transactionType
             currency_id := item.currency_id
             value := sumDebitByOrigin incomes item.origin_id }
    else none

/-- The expense `forEach`/push of `groupingResult`. -/
def rawSummationExpense (expenses : List Posting) : List Entry :=
  expenses.filterMap fun item =>
    if item.origin_id ≠ 0 then
      some { transfer_type := item.transactionType
             currency_id := item.currency_id
             value := sumCreditByOrigin expenses item.origin_id }
    else none

/-- The duplicate-removal `filter` of `groupingResult`: keep the first
entry per `transfer_type`; `cache` is the set of keys already kept (the JS
object maps kept keys to a truthy mark). -/
def dedupeByTransferType : List Entry → List String → List Entry
  | [], _ => []
  | elem :: rest, cache =>
    if elem.transfer_type ∈ cache then dedupeByTransferType rest cache
    else elem :: dedupeByTransferType rest (elem.transfer_type :: cache)

/-- What `groupingResult` stores in `session.summationIncome[period]`
(the cashbox-account-name bookkeeping of the source is orthogonal session
cosmetics and is not part of the stored lists). -/
def summationIncomeOf (incomes : List Posting) : List Entry :=
  dedupeByTransferType (rawSummationIncome incomes) []

/-- What `groupingResult` stores in `session.summationExpense[period]`. -/
def summationExpenseOf (expenses : List Posting) : List Entry :=
  dedupeByTransferType (rawSummationExpense expenses) []

/-- The mutable per-request `session` of the `document` pipeline, after
`initialization` and `groupingResult` have run: string-keyed JS objects
become total functions (every key read by `summarization` is written
first, so the source's `undefined` cases never arise in the modelled
runs). -/
structure DocSession where
  openningBalance : Rat
  summationIncome : DateYMD → List Entry
  summationExpense : DateYMD → List Entry
  periodStartArray : List DateYMD
  sum_incomes : DateYMD → Rat := fun _ => 0
  sum_expense : DateYMD → Rat := fun _ => 0
  periodicBalance : DateYMD → Rat := fun _ => 0
  periodicOpenningBalance : DateYMD → Rat := fun _ => 0
  incomesLabels : List String := []
  expensesLabels : List String := []

/-- Pointwise update of a string-keyed JS object modelled as a function. -/
def store {β : Type} (f : DateYMD → β) (k : DateYMD) (v : β) : DateYMD → β :=
  fun x => if x = k then v else f x

/-- The `forEach` accumulation `sum += transaction.value` over one
summation list. -/
def sumValues (transactions : List Entry) : Rat :=
  transactions.foldl (fun a transaction => a + transaction.value) 0

/-- `isFirstPeriod(period)`: compare against the first entry of
`session.periodStartArray`.  When that reference falls on January 1st
(`getDate() === 1 && getMonth() === 0`, i.e. `day = 1 ∧ month = 1`), test
only day-of-month and month of `period`; otherwise test day, month and
year (`getYear()` equality coincides with `year` equality).  An empty
array gives an invalid reference date in JS, whose comparisons are all
false. -/
def isFirstPeriod (periodStartArray : List DateYMD) (period : DateYMD) : Bool :=
  match periodStartArray with
  | [] => false
  | reference :: _ =>
    if reference.day == 1 && reference.month == 1 then
      period.day == 1 && period.month == 1
    else
      period.day == reference.day && period.month == reference.month &&
        period.year == reference.year

/-- `previousPeriod(period)`: the entry before `period`'s first occurrence
in `session.periodStartArray`, or the entry at the occurrence itself when
that occurrence is index 0.  (JS `indexOf` yields -1 on a missing key where
`List.indexOf` yields the length; the pipeline only calls this with
`period` a member of the array.) -/
def previousPeriod (periodStartArray : List DateYMD) (period : DateYMD) : DateYMD :=
  let currentIndex := periodStartArray.indexOf period
  if currentIndex ≠ 0 then periodStartArray.getD (currentIndex - 1) ⟨0, 1, 1⟩
  else periodStartArray.getD currentIndex ⟨0, 1, 1⟩

/-- `summarization(period)`: set `sum_incomes[period]` / `sum_expense[period]`
from the stored summation lists, push the transfer-type labels, then store
`periodicBalance[period]` and finally `periodicOpenningBalance[period]` —
the second ternary re-reads `periodicBalance`, hence the sequential
threading. -/
def summarization (s : DocSession) (period : DateYMD) : DocSession :=
  let si := sumValues (s.summationIncome period)
  let se := sumValues (s.summationExpense period)
  let s1 : DocSession :=
    { s with
      sum_incomes := store s.sum_incomes period si
      sum_expense := store s.sum_expense period se
      incomesLabels :=
        s.incomesLabels ++ (s.summationIncome period).map Entry.transfer_type
      expensesLabels :=
        s.expensesLabels ++ (s.summationExpense period).map Entry.transfer_type }
  let s2 : DocSession :=
    { s1 with
      periodicBalance := store s1.periodicBalance period
        (if isFirstPeriod s1.periodStartArray period then
          (s1.openningBalance + si) - se
        else
          (s1.periodicBalance (previousPeriod s1.periodStartArray period) + si) - se) }
  { s2 with
    periodicOpenningBalance := store s2.periodicOpenningBalance period
      (if isFirstPeriod s2.periodStartArray period then
        s2.openningBalance
      else
        s2.periodicBalance (previousPeriod s2.periodStartArray period)) }

/-- The `reporting` loop `session.periodicData.forEach(flow =>
summarization(format(flow.period.start_date)))`: the iterated keys are
exactly `session.periodStartArray`, in order. -/
def runSummarization (s : DocSession) : DocSession :=
  s.periodStartArray.foldl summarization s

/-- The spec's two-period scenario: periods starting 2024-01-01 and
2024-02-01, pre-range opening balance 100, incomes 500/300 and expenses
200/400 (single-entry summation lists per period). -/
def specScenario : DocSession :=
  { openningBalance := 100
    summationIncome := fun q =>
      if q = { year := 2024, month := 1, day := 1 } then
        [{ transfer_type := "CASH", currency_id := 1, value := 500 }]
      else [{ transfer_type := "CASH", currency_id := 1, value := 300 }]
    summationExpense := fun q =>
      if q = { year := 2024, month := 1, day := 1 } then
        [{ transfer_type := "CASH", currency_id := 1, value := 200 }]
      else [{ transfer_type := "CASH", currency_id := 1, value := 400 }]
    periodStartArray := [{ year := 2024, month := 1, day := 1 },
      { year := 2024, month := 2, day := 1 }] }

/-- One matrix cell of the by-service report: JS `null`, a string, or a
number. -/
inductive Cell
  | null
  | str (s : String)
  | num (q : Rat)
deriving DecidableEq

/-- One row of the `cashflowByServiceSql` query (fields the matrix builder
reads; `cumsum` is the windowed running total computed by the query). -/
structure ServiceRow where
  reference : String
  display_name : String
  name : String
  cashAmount : Rat
  cumsum : Rat
deriving DecidableEq

/-- The per-row matrix line of `reportByService`: a null-filled line of
`services.length + 3` cells, then `line[0] = reference`,
`line[1] = display_name`, `line[indexOf(name) + 2] = cashAmount`,
`line[xAxis + 2] = cumsum`.  (On a service name absent from `services`, JS
`indexOf` gives -1 and the source clobbers `line[1]`; `List.indexOf` gives
the length instead — the divergence is outside every run where rows'
names come from `services`' own query, and outside the claims.) -/
def buildLine (services : List String) (row : ServiceRow) : List Cell :=
  let xAxis := services.length
  let line := List.replicate (xAxis + 3) Cell.null
  let line := line.set 0 (Cell.str row.reference)
  let line := line.set 1 (Cell.str row.display_name)
  let idx := services.indexOf row.name + 2
  let line := line.set idx (Cell.num row.cashAmount)
  line.set (xAxis + 2) (Cell.num row.cumsum)

/-- The whole matrix: one built line per query row. -/
def reportMatrix (services : List String) (rows : List ServiceRow) :
    List (List Cell) :=
  rows.map (buildLine services)

/-- First period record as mutated by `processingWeekCashflow` (lines
213 and 221): weeks from `getWeeks`, with the first `start_date` forced to
`dateFrom`. -/
def resolvedWeekPeriods (dateFrom dateTo : Int) : List Period :=
  setHeadStart dateFrom (getWeeks dateFrom dateTo)

section Theorems

/-! Helper lemmas about `getWeeks`. -/

lemma getWeeksAux_ne_nil (fuel : Nat) (first dateTo : Int) :
    getWeeksAux (fuel + 1) first dateTo ≠ [] := by
  unfold getWeeksAux
  dsimp only
  split <;> simp

lemma getWeeks_ne_nil (dateFrom dateTo : Int) : getWeeks dateFrom dateTo ≠ [] :=
  getWeeksAux_ne_nil ((dateTo - dateFrom).toNat + 1) dateFrom dateTo

lemma getWeeksAux_head (fuel : Nat) (first dateTo : Int) :
    (getWeeksAux (fuel + 1) first dateTo).head? =
      some { week := 1, start_date := startOfWeek first
             end_date := startOfWeek first + 6 } := by
  unfold getWeeksAux
  dsimp only
  split <;> rfl

lemma getWeeks_head (dateFrom dateTo : Int) :
    (getWeeks dateFrom dateTo).head? =
      some { week := 1, start_date := startOfWeek dateFrom
             end_date := startOfWeek dateFrom + 6 } :=
  getWeeksAux_head ((dateTo - dateFrom).toNat + 1) dateFrom dateTo

/-- C5: a request whose parameters lack `account_id` is rejected by both
`processingCashflowReport` and `processingWeekCashflow` with the
`BadRequest` 'Cashbox is missing' (status 400), whatever every other
parameter and whatever the database would have answered — the error does
not depend on the period, balance or ledger inputs, so it precedes every
query. -/
theorem missing_account_rejected (params : Params) (periods : List Period)
    (balance balance' : Option Rat) (rows rows' : List Posting)
    (h : params.account_id = none) :
    processingCashflowReport params periods balance rows = Except.error cashboxMissing ∧
    processingWeekCashflow params balance' rows' = Except.error cashboxMissing ∧
    cashboxMissing.status = 400 := by
  refine ⟨?_, ?_, rfl⟩ <;>
    simp [processingCashflowReport, processingWeekCashflow, accountIdMissing, h]

/-- Witness for C5 at a concrete request lacking `account_id`. -/
theorem missing_account_rejected_witness :
    processingCashflowReport { account_id := none, dateFrom := 0, dateTo := 7 } []
        none [] = Except.error cashboxMissing ∧
    processingWeekCashflow { account_id := none, dateFrom := 0, dateTo := 7 }
        none [] = Except.error cashboxMissing ∧
    cashboxMissing.status = 400 :=
  missing_account_rejected _ [] none none [] [] rfl

/-- C10: `getWeeks` returns a non-empty list for every pair of dates (the
do-while loop pushes the week of `dateFrom` before testing its condition),
so the empty-period `BadRequest` branch of `processingWeekCashflow` is
unreachable: no input makes it return the bad-date-interval error. -/
theorem getWeeks_nonempty_branch_unreachable (dateFrom dateTo : Int)
    (params : Params) (balance : Option Rat) (rows : List Posting) :
    getWeeks dateFrom dateTo ≠ [] ∧
    processingWeekCashflow params balance rows ≠ Except.error badDateInterval := by
  refine ⟨getWeeks_ne_nil dateFrom dateTo, ?_⟩
  unfold processingWeekCashflow
  split
  · intro h
    have : cashboxMissing = badDateInterval := by
      simpa using h
    simp [cashboxMissing, badDateInterval] at this
  · have hne : getWeeks params.dateFrom params.dateTo ≠ [] :=
      getWeeks_ne_nil params.dateFrom params.dateTo
    have hlen : (getWeeks params.dateFrom params.dateTo).length ≠ 0 := by
      simpa [List.length_eq_zero] using hne
    simp [hlen]

/-- C3 counterexample: with `dateFrom` after `dateTo` (2024-03-20 vs
2024-03-05), `processingWeekCashflow` does not raise any error — the week
sequence resolved by `getWeeks` is not empty, so the claim's "in
particular when dateFrom is after dateTo" fails for the weekly flow. -/
theorem empty_range_error_counterexample :
    (civilToDay 2024 3 5 < civilToDay 2024 3 20 ∧
      (processingWeekCashflow
        { account_id := some "1", dateFrom := civilToDay 2024 3 20
          dateTo := civilToDay 2024 3 5, weekly := true } none []).isOk = true) := by
  decide

/-- C3 amended: whenever the resolved period sequence is empty,
`processingCashflowReport` raises the `BadRequest` with code
`ERRORS.BAD_DATE_INTERVAL` and returns no partial result; for
`processingWeekCashflow` the sequence produced by `getWeeks` is never
empty, so that error is never raised there (in particular `dateFrom` after
`dateTo` does not raise it). -/
theorem empty_range_error (params : Params) (periods : List Period)
    (balance balance' : Option Rat) (rows rows' : List Posting)
    (hacct : accountIdMissing params.account_id = false)
    (hempty : periods = []) :
    processingCashflowReport params periods balance rows = Except.error badDateInterval ∧
    processingWeekCashflow params balance' rows' ≠ Except.error badDateInterval := by
  constructor
  · simp [processingCashflowReport, hacct, hempty]
  · exact (getWeeks_nonempty_branch_unreachable 0 0 params balance' rows').2

/-- Witness for C3's amended statement at a concrete request. -/
theorem empty_range_error_witness :
    processingCashflowReport { account_id := some "1", dateFrom := 7, dateTo := 0 } []
        none [] = Except.error badDateInterval ∧
    processingWeekCashflow { account_id := some "1", dateFrom := 7, dateTo := 0 }
        none [] ≠ Except.error badDateInterval :=
  empty_range_error { account_id := some "1", dateFrom := 7, dateTo := 0 } []
    none none [] [] rfl rfl

/-- C4: in weekly mode, for every `dateFrom ≤ dateTo` the first resolved
period's `start_date` is exactly the requested `dateFrom` (the line-221
overwrite), while the week list built by `getWeeks` starts at the
week-aligned `startOf('week')` of `dateFrom`. -/
theorem weekly_first_period_starts_at_dateFrom (dateFrom dateTo : Int)
    (_hle : dateFrom ≤ dateTo) :
    ((resolvedWeekPeriods dateFrom dateTo).head?).map Period.start_date =
      some dateFrom ∧
    ((getWeeks dateFrom dateTo).head?).map Period.start_date =
      some (startOfWeek dateFrom) := by
  constructor
  · unfold resolvedWeekPeriods
    have h := getWeeks_head dateFrom dateTo
    cases hw : getWeeks dateFrom dateTo with
    | nil => exact absurd hw (getWeeks_ne_nil dateFrom dateTo)
    | cons p rest => simp [setHeadStart]
  · rw [getWeeks_head dateFrom dateTo]
    rfl

/-- Witness for C4 at the spec's scenario: dateFrom = 2024-03-05 (a
Tuesday), dateTo = 2024-03-20; the first resolved week starts 2024-03-05
exactly, while the raw week list starts on week-aligned 2024-03-03. -/
theorem weekly_first_period_starts_at_dateFrom_witness :
    ((resolvedWeekPeriods (civilToDay 2024 3 5) (civilToDay 2024 3 20)).head?).map
        Period.start_date = some (civilToDay 2024 3 5) ∧
    ((getWeeks (civilToDay 2024 3 5) (civilToDay 2024 3 20)).head?).map
        Period.start_date = some (startOfWeek (civilToDay 2024 3 5)) :=
  weekly_first_period_starts_at_dateFrom (civilToDay 2024 3 5)
    (civilToDay 2024 3 20) (by decide)

/-- Membership in the filter used by `groupByPeriod`. -/
lemma mem_groupByPeriod_filter (weekly : Bool) (p : Period) (flows : List Posting)
    (f : Posting) :
    (f ∈ flows.filter fun f =>
        if weekly then
          decide (f.trans_date ≤ p.end_date) && decide (p.start_date ≤ f.trans_date)
        else p.id == f.period_id) ↔
      f ∈ flows ∧
        (if weekly then f.trans_date ≤ p.end_date ∧ p.start_date ≤ f.trans_date
         else p.id = f.period_id) := by
  cases weekly <;> simp [List.mem_filter]

/-- C8: `groupByPeriod` places a posting into a period's bucket exactly
when, in calendar mode, the posting's `period_id` equals that period's
`id`, or, in weekly mode, its `trans_date` lies inclusively between that
period's `start_date` and `end_date`; the buckets correspond one-to-one,
in order, to the periods, and a posting matching no period appears in no
bucket. -/
theorem groupByPeriod_membership (periods : List Period) (flows : List Posting)
    (weekly : Bool) :
    (List.Forall₂ (fun p b =>
      b.period = p ∧
      ∀ f : Posting, f ∈ b.flows ↔ f ∈ flows ∧
        (if weekly then f.trans_date ≤ p.end_date ∧ p.start_date ≤ f.trans_date
         else p.id = f.period_id))
      periods (groupByPeriod periods flows weekly)) ∧
    ∀ f : Posting,
      (∀ p ∈ periods,
        ¬(if weekly then f.trans_date ≤ p.end_date ∧ p.start_date ≤ f.trans_date
          else p.id = f.period_id)) →
      ∀ b ∈ groupByPeriod periods flows weekly, f ∉ b.flows := by
  constructor
  · induction periods with
    | nil => simp [groupByPeriod]
    | cons p rest ih =>
      simp only [groupByPeriod, List.map_cons] at ih ⊢
      exact List.Forall₂.cons
        ⟨rfl, fun f => mem_groupByPeriod_filter weekly p flows f⟩ ih
  · intro f hno b hb hmem
    obtain ⟨p, hp, rfl⟩ := List.mem_map.1 hb
    exact hno p hp ((mem_groupByPeriod_filter weekly p flows f).1 hmem).2

/-- Witness for C8's no-match clause at a concrete posting and period list. -/
theorem groupByPeriod_membership_witness :
    ((List.Forall₂ (fun p b =>
      b.period = p ∧
      ∀ f : Posting, f ∈ b.flows ↔
        f ∈ [{ trans_date := 40, period_id := 9, debit_equiv := 1, credit_equiv := 0,
               currency_id := 1, origin_id := 1, transactionType := "T" }] ∧
        (if false then f.trans_date ≤ p.end_date ∧ p.start_date ≤ f.trans_date
         else p.id = f.period_id))
      [{ id := 1, start_date := 0, end_date := 30 }]
      (groupByPeriod [{ id := 1, start_date := 0, end_date := 30 }]
        [{ trans_date := 40, period_id := 9, debit_equiv := 1, credit_equiv := 0,
           currency_id := 1, origin_id := 1, transactionType := "T" }] false)) ∧
    ∀ f : Posting,
      (∀ p ∈ [({ id := 1, start_date := 0, end_date := 30 } : Period)],
        ¬(if false then f.trans_date ≤ p.end_date ∧ p.start_date ≤ f.trans_date
          else p.id = f.period_id)) →
      ∀ b ∈ groupByPeriod [{ id := 1, start_date := 0, end_date := 30 }]
        [{ trans_date := 40, period_id := 9, debit_equiv := 1, credit_equiv := 0,
           currency_id := 1, origin_id := 1, transactionType := "T" }] false,
        f ∉ b.flows) :=
  groupByPeriod_membership
    [{ id := 1, start_date := 0, end_date := 30 }]
    [{ trans_date := 40, period_id := 9, debit_equiv := 1, credit_equiv := 0,
       currency_id := 1, origin_id := 1, transactionType := "T" }] false

/-- C7: within each period bucket, `groupingIncomeExpenseByPeriod` puts a
posting into incomes exactly when `debit_equiv > 0` and into expenses
exactly when `credit_equiv > 0`, two independent filters, so a posting
with both fields positive lands in both lists. -/
theorem income_expense_split (periodicFlows : List PeriodFlows) :
    List.Forall₂ (fun pf g =>
      g.period = pf.period ∧
      ∀ f : Posting,
        (f ∈ g.incomes ↔ f ∈ pf.flows ∧ f.debit_equiv > 0) ∧
        (f ∈ g.expenses ↔ f ∈ pf.flows ∧ f.credit_equiv > 0) ∧
        (f ∈ pf.flows → f.debit_equiv > 0 → f.credit_equiv > 0 →
          f ∈ g.incomes ∧ f ∈ g.expenses))
      periodicFlows (groupingIncomeExpenseByPeriod periodicFlows) := by
  induction periodicFlows with
  | nil => simp [groupingIncomeExpenseByPeriod]
  | cons pf rest ih =>
    simp only [groupingIncomeExpenseByPeriod, List.map_cons] at ih ⊢
    refine List.Forall₂.cons ⟨rfl, fun f => ?_⟩ ih
    refine ⟨by simp [List.mem_filter], by simp [List.mem_filter], ?_⟩
    intro hmem hd hc
    simp [List.mem_filter, hmem, hd, hc]

/-! Helper lemmas about `groupingResult`'s summation lists. -/

lemma dedupe_subset (l : List Entry) (cache : List String) (e : Entry)
    (h : e ∈ dedupeByTransferType l cache) : e ∈ l := by
  induction l generalizing cache with
  | nil => simp [dedupeByTransferType] at h
  | cons a rest ih =>
    by_cases hc : a.transfer_type ∈ cache
    · simp only [dedupeByTransferType, if_pos hc] at h
      exact List.mem_cons_of_mem _ (ih _ h)
    · simp only [dedupeByTransferType, if_neg hc, List.mem_cons] at h
      rcases h with h | h
      · exact h ▸ List.mem_cons_self _ _
      · exact List.mem_cons_of_mem _ (ih _ h)

lemma dedupe_keys_nodup (l : List Entry) (cache : List String) :
    ((dedupeByTransferType l cache).map Entry.transfer_type).Nodup ∧
    ∀ e ∈ dedupeByTransferType l cache, e.transfer_type ∉ cache := by
  induction l generalizing cache with
  | nil => simp [dedupeByTransferType]
  | cons a rest ih =>
    by_cases hc : a.transfer_type ∈ cache
    · simpa only [dedupeByTransferType, if_pos hc] using ih cache
    · obtain ⟨ihnd, ihcache⟩ := ih (a.transfer_type :: cache)
      simp only [dedupeByTransferType, if_neg hc, List.map_cons, List.nodup_cons,
        List.mem_cons]
      refine ⟨⟨?_, ihnd⟩, ?_⟩
      · intro hkey
        obtain ⟨e, he, hkeye⟩ := List.mem_map.1 hkey
        exact ihcache e he (by simp [hkeye])
      · rintro e (rfl | he)
        · exact hc
        · intro hmem
          exact ihcache e he (by simp [hmem])

lemma foldl_byOrigin (g : Posting → Rat) (o : Nat) :
    ∀ (l : List Posting) (a : Rat),
      l.foldl (fun a b => if b.origin_id == o then g b + a else a) a =
        ((l.filter fun b => b.origin_id == o).map g).sum + a := by
  intro l
  induction l with
  | nil => intro a; simp
  | cons x rest ih =>
    intro a
    by_cases hx : x.origin_id = o
    · simp only [List.foldl_cons, List.filter_cons, hx, beq_self_eq_true, if_pos,
        List.map_cons, List.sum_cons]
      rw [ih]
      ring
    · have hb : (x.origin_id == o) = false := by simp [hx]
      simp only [List.foldl_cons, List.filter_cons, hb, Bool.false_eq_true,
        if_false, cond_false]
      exact ih a

lemma sumDebitByOrigin_eq (incomes : List Posting) (o : Nat) :
    sumDebitByOrigin incomes o =
      ((incomes.filter fun b => b.origin_id == o).map Posting.debit_equiv).sum := by
  unfold sumDebitByOrigin
  rw [foldl_byOrigin Posting.debit_equiv o incomes 0, add_zero]

lemma sumCreditByOrigin_eq (expenses : List Posting) (o : Nat) :
    sumCreditByOrigin expenses o =
      ((expenses.filter fun b => b.origin_id == o).map Posting.credit_equiv).sum := by
  unfold sumCreditByOrigin
  rw [foldl_byOrigin Posting.credit_equiv o expenses 0, add_zero]

lemma mem_rawSummationIncome (incomes : List Posting) (e : Entry)
    (h : e ∈ rawSummationIncome incomes) :
    ∃ item ∈ incomes, item.origin_id ≠ 0 ∧
      e = { transfer_type := item.transactionType, currency_id := item.currency_id
            value := sumDebitByOrigin incomes item.origin_id } := by
  obtain ⟨item, hitem, heq⟩ := List.mem_filterMap.1 h
  by_cases ho : item.origin_id ≠ 0
  · refine ⟨item, hitem, ho, ?_⟩
    rw [if_pos ho] at heq
    exact (Option.some.inj heq).symm
  · rw [if_neg ho] at heq
    exact absurd heq (Option.noConfusion)

lemma mem_rawSummationExpense (expenses : List Posting) (e : Entry)
    (h : e ∈ rawSummationExpense expenses) :
    ∃ item ∈ expenses, item.origin_id ≠ 0 ∧
      e = { transfer_type := item.transactionType, currency_id := item.currency_id
            value := sumCreditByOrigin expenses item.origin_id } := by
  obtain ⟨item, hitem, heq⟩ := List.mem_filterMap.1 h
  by_cases ho : item.origin_id ≠ 0
  · refine ⟨item, hitem, ho, ?_⟩
    rw [if_pos ho] at heq
    exact (Option.some.inj heq).symm
  · rw [if_neg ho] at heq
    exact absurd heq (Option.noConfusion)

/-- C2: the per-period summation lists built by `groupingResult` contain at
most one entry per `transfer_type` label (the dedup filter keeps first
occurrences), and every retained entry's `value` is the total
`debit_equiv` (incomes) or `credit_equiv` (expenses) summed over all
postings of the period sharing the origin of the posting that produced
that entry. -/
theorem summation_entries_unique_and_summed (incomes expenses : List Posting) :
    (((summationIncomeOf incomes).map Entry.transfer_type).Nodup ∧
      ∀ e ∈ summationIncomeOf incomes, ∃ item ∈ incomes, item.origin_id ≠ 0 ∧
        e.transfer_type = item.transactionType ∧
        e.value = ((incomes.filter fun b => b.origin_id == item.origin_id).map
          Posting.debit_equiv).sum) ∧
    (((summationExpenseOf expenses).map Entry.transfer_type).Nodup ∧
      ∀ e ∈ summationExpenseOf expenses, ∃ item ∈ expenses, item.origin_id ≠ 0 ∧
        e.transfer_type = item.transactionType ∧
        e.value = ((expenses.filter fun b => b.origin_id == item.origin_id).map
          Posting.credit_equiv).sum) := by
  refine ⟨⟨(dedupe_keys_nodup _ []).1, ?_⟩, ⟨(dedupe_keys_nodup _ []).1, ?_⟩⟩
  · intro e he
    obtain ⟨item, hitem, ho, rfl⟩ :=
      mem_rawSummationIncome incomes e (dedupe_subset _ [] e he)
    exact ⟨item, hitem, ho, rfl, sumDebitByOrigin_eq incomes item.origin_id⟩
  · intro e he
    obtain ⟨item, hitem, ho, rfl⟩ :=
      mem_rawSummationExpense expenses e (dedupe_subset _ [] e he)
    exact ⟨item, hitem, ho, rfl, sumCreditByOrigin_eq expenses item.origin_id⟩

/-- C6: `isFirstPeriod` returns true exactly when — with a period-start
list headed by `reference` — either `reference` falls on January 1st and
the period's start has day-of-month 1 and month January (year ignored), or
`reference` does not and the period's start shares its day-of-month, month
and year.  (`getMonth() === 0` is month 1 here; `getYear()` equality
coincides with `year` equality.) -/
theorem isFirstPeriod_semantics (periodStartArray : List DateYMD)
    (reference : DateYMD) (rest : List DateYMD) (period : DateYMD)
    (h : periodStartArray = reference :: rest) :
    (isFirstPeriod periodStartArray period = true ↔
      (if reference.day = 1 ∧ reference.month = 1 then
        period.day = 1 ∧ period.month = 1
      else
        period.day = reference.day ∧ period.month = reference.month ∧
          period.year = reference.year)) := by
  subst h
  by_cases h1 : reference.day = 1 ∧ reference.month = 1
  · simp [isFirstPeriod, h1]
  · have hb : (reference.day == 1 && reference.month == 1) = false := by
      rcases not_and_or.1 h1 with h | h <;> simp [h]
    simp [isFirstPeriod, hb, if_neg h1, and_assoc]

/-- Witness for C6 with reference 2024-01-01 (a January 1st) and period
2025-01-01: the year is ignored and the period counts as first. -/
theorem isFirstPeriod_semantics_witness :
    (isFirstPeriod [{ year := 2024, month := 1, day := 1 }]
        { year := 2025, month := 1, day := 1 } = true ↔
      (if ({ year := 2024, month := 1, day := 1 } : DateYMD).day = 1 ∧
          ({ year := 2024, month := 1, day := 1 } : DateYMD).month = 1 then
        ({ year := 2025, month := 1, day := 1 } : DateYMD).day = 1 ∧
          ({ year := 2025, month := 1, day := 1 } : DateYMD).month = 1
      else
        ({ year := 2025, month := 1, day := 1 } : DateYMD).day =
            ({ year := 2024, month := 1, day := 1 } : DateYMD).day ∧
          ({ year := 2025, month := 1, day := 1 } : DateYMD).month =
            ({ year := 2024, month := 1, day := 1 } : DateYMD).month ∧
          ({ year := 2025, month := 1, day := 1 } : DateYMD).year =
            ({ year := 2024, month := 1, day := 1 } : DateYMD).year)) :=
  isFirstPeriod_semantics _ _ [] _ rfl

/-- C9: for a query row whose service name occurs in the distinct service
list, the emitted matrix line has the cash payment reference at column 0,
the patient display name at column 1, the row's `cashAmount` exactly in
the column of its service name, the running total `cumsum` in the last
column, and null everywhere else; the line is the row's line of the
matrix. -/
theorem byService_matrix_line (services : List String) (row : ServiceRow)
    (_hnd : services.Nodup) (hmem : row.name ∈ services) :
    (buildLine services row).length = services.length + 3 ∧
    (buildLine services row)[0]? = some (Cell.str row.reference) ∧
    (buildLine services row)[1]? = some (Cell.str row.display_name) ∧
    (buildLine services row)[services.indexOf row.name + 2]? =
      some (Cell.num row.cashAmount) ∧
    (buildLine services row)[services.length + 2]? = some (Cell.num row.cumsum) ∧
    (∀ k, k < services.length + 3 → k ≠ 0 → k ≠ 1 →
      k ≠ services.indexOf row.name + 2 → k ≠ services.length + 2 →
      (buildLine services row)[k]? = some Cell.null) ∧
    ∀ rows : List ServiceRow, row ∈ rows →
      buildLine services row ∈ reportMatrix services rows := by
  have hidx : services.indexOf row.name < services.length :=
    List.indexOf_lt_length.2 hmem
  have hbuild : buildLine services row =
      ((((List.replicate (services.length + 3) Cell.null).set 0
        (Cell.str row.reference)).set 1
        (Cell.str row.display_name)).set (services.indexOf row.name + 2)
        (Cell.num row.cashAmount)).set (services.length + 2)
        (Cell.num row.cumsum) := rfl
  have hlen : (buildLine services row).length = services.length + 3 := by
    rw [hbuild]; simp
  refine ⟨hlen, ?_, ?_, ?_, ?_, ?_, ?_⟩
  · rw [hbuild,
      List.getElem?_set_ne (by omega),
      List.getElem?_set_ne (by omega),
      List.getElem?_set_ne (by omega),
      List.getElem?_set_self (by simp)]
  · rw [hbuild,
      List.getElem?_set_ne (by omega),
      List.getElem?_set_ne (by omega),
      List.getElem?_set_self (by simp)]
  · rw [hbuild,
      List.getElem?_set_ne (by omega),
      List.getElem?_set_self (by simp; omega)]
  · rw [hbuild, List.getElem?_set_self (by simp)]
  · intro k hk h0 h1 hi hlast
    rw [hbuild,
      List.getElem?_set_ne (fun h => hlast h.symm),
      List.getElem?_set_ne (fun h => hi h.symm),
      List.getElem?_set_ne (fun h => h1 h.symm),
      List.getElem?_set_ne (fun h => h0 h.symm),
      List.getElem?_replicate, if_pos hk]
  · intro rows hrow
    exact List.mem_map_of_mem (buildLine services) hrow

/-- Witness for C9 at a two-service list and a concrete row for the
second service. -/
theorem byService_matrix_line_witness :
    (buildLine ["Lab", "Surgery"]
        { reference := "CP.TPA.1", display_name := "Alice", name := "Surgery"
          cashAmount := 25, cumsum := 25 }).length = 5 ∧
    (buildLine ["Lab", "Surgery"]
        { reference := "CP.TPA.1", display_name := "Alice", name := "Surgery"
          cashAmount := 25, cumsum := 25 })[0]? = some (Cell.str "CP.TPA.1") ∧
    (buildLine ["Lab", "Surgery"]
        { reference := "CP.TPA.1", display_name := "Alice", name := "Surgery"
          cashAmount := 25, cumsum := 25 })[1]? = some (Cell.str "Alice") ∧
    (buildLine ["Lab", "Surgery"]
        { reference := "CP.TPA.1", display_name := "Alice", name := "Surgery"
          cashAmount := 25, cumsum := 25 })[3]? = some (Cell.num 25) ∧
    (buildLine ["Lab", "Surgery"]
        { reference := "CP.TPA.1", display_name := "Alice", name := "Surgery"
          cashAmount := 25, cumsum := 25 })[4]? = some (Cell.num 25) ∧
    (∀ k, k < 5 → k ≠ 0 → k ≠ 1 → k ≠ 3 → k ≠ 4 →
      (buildLine ["Lab", "Surgery"]
        { reference := "CP.TPA.1", display_name := "Alice", name := "Surgery"
          cashAmount := 25, cumsum := 25 })[k]? = some Cell.null) ∧
    ∀ rows : List ServiceRow,
      { reference := "CP.TPA.1", display_name := "Alice", name := "Surgery"
        cashAmount := 25, cumsum := 25 : ServiceRow } ∈ rows →
      buildLine ["Lab", "Surgery"]
        { reference := "CP.TPA.1", display_name := "Alice", name := "Surgery"
          cashAmount := 25, cumsum := 25 } ∈ reportMatrix ["Lab", "Surgery"] rows :=
  byService_matrix_line ["Lab", "Surgery"]
    { reference := "CP.TPA.1", display_name := "Alice", name := "Surgery"
      cashAmount := 25, cumsum := 25 } (by decide) (by decide)

/-! Helper lemmas about `summarization` and `runSummarization`. -/

lemma store_self {β : Type} (f : DateYMD → β) (k : DateYMD) (v : β) :
    store f k v k = v := by
  simp [store]

lemma store_other {β : Type} (f : DateYMD → β) (k : DateYMD) (v : β)
    (x : DateYMD) (h : x ≠ k) : store f k v x = f x := by
  simp [store, h]

/-- `summarization` leaves the opening balance, the summation maps and the
period-start array untouched. -/
lemma summarization_frame (s : DocSession) (p : DateYMD) :
    (summarization s p).openningBalance = s.openningBalance ∧
    (summarization s p).summationIncome = s.summationIncome ∧
    (summarization s p).summationExpense = s.summationExpense ∧
    (summarization s p).periodStartArray = s.periodStartArray :=
  ⟨rfl, rfl, rfl, rfl⟩

lemma foldl_frame (l : List DateYMD) (s : DocSession) :
    (l.foldl summarization s).openningBalance = s.openningBalance ∧
    (l.foldl summarization s).summationIncome = s.summationIncome ∧
    (l.foldl summarization s).summationExpense = s.summationExpense ∧
    (l.foldl summarization s).periodStartArray = s.periodStartArray := by
  induction l generalizing s with
  | nil => exact ⟨rfl, rfl, rfl, rfl⟩
  | cons p rest ih =>
    simpa only [List.foldl_cons] using ih (summarization s p)

/-- `summarization s p` leaves every map entry of a key other than `p`
untouched. -/
lemma summarization_other (s : DocSession) (p q : DateYMD) (h : q ≠ p) :
    (summarization s p).sum_incomes q = s.sum_incomes q ∧
    (summarization s p).sum_expense q = s.sum_expense q ∧
    (summarization s p).periodicBalance q = s.periodicBalance q ∧
    (summarization s p).periodicOpenningBalance q = s.periodicOpenningBalance q := by
  refine ⟨?_, ?_, ?_, ?_⟩ <;> simp [summarization, store, h]

lemma foldl_other (l : List DateYMD) (s : DocSession) (q : DateYMD) (h : q ∉ l) :
    (l.foldl summarization s).sum_incomes q = s.sum_incomes q ∧
    (l.foldl summarization s).sum_expense q = s.sum_expense q ∧
    (l.foldl summarization s).periodicBalance q = s.periodicBalance q ∧
    (l.foldl summarization s).periodicOpenningBalance q =
      s.periodicOpenningBalance q := by
  induction l generalizing s with
  | nil => exact ⟨rfl, rfl, rfl, rfl⟩
  | cons p rest ih =>
    have hqp : q ≠ p := fun hq => h (hq ▸ List.mem_cons_self p rest)
    have hqrest : q ∉ rest := fun hq => h (List.mem_cons_of_mem p hq)
    obtain ⟨h1, h2, h3, h4⟩ := ih (summarization s p) hqrest
    obtain ⟨g1, g2, g3, g4⟩ := summarization_other s p q hqp
    exact ⟨by simpa only [List.foldl_cons, g1] using h1,
      by simpa only [List.foldl_cons, g2] using h2,
      by simpa only [List.foldl_cons, g3] using h3,
      by simpa only [List.foldl_cons, g4] using h4⟩

/-- The values `summarization s p` writes at key `p`; the opening-balance
entry needs the previous period to differ from `p` itself (the read of
`periodicBalance` happens after the balance write). -/
lemma summarization_at (s : DocSession) (p : DateYMD)
    (hprev : isFirstPeriod s.periodStartArray p = false →
      previousPeriod s.periodStartArray p ≠ p) :
    (summarization s p).sum_incomes p = sumValues (s.summationIncome p) ∧
    (summarization s p).sum_expense p = sumValues (s.summationExpense p) ∧
    (summarization s p).periodicBalance p =
      (if isFirstPeriod s.periodStartArray p then
        (s.openningBalance + sumValues (s.summationIncome p)) -
          sumValues (s.summationExpense p)
      else
        (s.periodicBalance (previousPeriod s.periodStartArray p) +
          sumValues (s.summationIncome p)) -
          sumValues (s.summationExpense p)) ∧
    (summarization s p).periodicOpenningBalance p =
      (if isFirstPeriod s.periodStartArray p then s.openningBalance
       else s.periodicBalance (previousPeriod s.periodStartArray p)) := by
  refine ⟨by simp [summarization, store_self], by simp [summarization, store_self],
    ?_, ?_⟩
  · by_cases hf : isFirstPeriod s.periodStartArray p = true
    · simp [summarization, store_self, hf]
    · simp only [Bool.not_eq_true] at hf
      simp [summarization, store_self, hf]
  · by_cases hf : isFirstPeriod s.periodStartArray p = true
    · simp [summarization, store_self, hf]
    · simp only [Bool.not_eq_true] at hf
      have hne := hprev hf
      simp [summarization, store_self, hf, store_other _ _ _ _ hne]

/-- The head of the period-start array always counts as a first period. -/
lemma isFirstPeriod_head (p : DateYMD) (rest : List DateYMD) :
    isFirstPeriod (p :: rest) p = true := by
  simp only [isFirstPeriod]
  split
  · assumption
  · simp

/-- A non-first member of a duplicate-free period-start array has a
previous period different from itself. -/
lemma prev_ne_of_not_first (arr : List DateYMD) (p : DateYMD) (hnd : arr.Nodup)
    (hp : p ∈ arr) (hfp : isFirstPeriod arr p = false) :
    previousPeriod arr p ≠ p := by
  have hidx : arr.indexOf p < arr.length := List.indexOf_lt_length.2 hp
  unfold previousPeriod
  dsimp only
  by_cases h0 : arr.indexOf p = 0
  · exfalso
    cases arr with
    | nil => simp at hp
    | cons a rest =>
      by_cases hpa : p = a
      · subst hpa
        rw [isFirstPeriod_head] at hfp
        exact Bool.noConfusion hfp
      · rw [List.indexOf_cons_ne rest (fun h => hpa h.symm)] at h0
        exact Nat.succ_ne_zero _ h0
  · rw [if_pos h0]
    intro heq
    have hlt : arr.indexOf p - 1 < arr.length := by omega
    rw [List.getD_eq_getElem arr _ hlt] at heq
    have hgetp : arr[arr.indexOf p] = p := List.getElem_indexOf hidx
    have : arr.indexOf p - 1 = arr.indexOf p :=
      (List.Nodup.getElem_inj_iff hnd).1 (heq.trans hgetp.symm)
    omega

/-- Splitting a `foldl` of `summarization` at position `n`. -/
lemma foldl_decompose (l : List DateYMD) (n : Nat) (s : DocSession) :
    l.foldl summarization s =
      (l.drop n).foldl summarization ((l.take n).foldl summarization s) := by
  conv_lhs => rw [← List.take_append_drop n l]
  rw [List.foldl_append]

/-- In a duplicate-free list, the element at `j` does not recur later. -/
lemma getElem_not_mem_drop (l : List DateYMD) (hnd : l.Nodup) (j : Nat)
    (hj : j < l.length) : l.get ⟨j, hj⟩ ∉ l.drop (j + 1) := by
  intro hmem
  obtain ⟨k, hk, hEq⟩ := List.getElem_of_mem hmem
  rw [List.getElem_drop ..] at hEq
  have hlen : j + 1 + k < l.length := by
    simp only [List.length_drop] at hk
    omega
  have : j + 1 + k = j := (List.Nodup.getElem_inj_iff hnd).1 hEq
  omega

/-- The first `idx + 1` steps of the fold end with `summarization` applied
at `l[idx]`. -/
lemma foldl_take_succ (l : List DateYMD) (idx : Nat) (hidx : idx < l.length)
    (s : DocSession) :
    (l.take (idx + 1)).foldl summarization s =
      summarization ((l.take idx).foldl summarization s) (l.get ⟨idx, hidx⟩) := by
  rw [List.take_succ, List.getElem?_eq_getElem hidx]
  rw [List.foldl_append]
  rfl

/-- In a duplicate-free period-start array, the previous period of the
element at `i + 1` is the element at `i`. -/
lemma previousPeriod_getElem (arr : List DateYMD) (hnd : arr.Nodup) (i : Nat)
    (hi : i + 1 < arr.length) :
    previousPeriod arr (arr.get ⟨i + 1, hi⟩) = arr.get ⟨i, Nat.lt_of_succ_lt hi⟩ := by
  unfold previousPeriod
  dsimp only
  simp only [List.get_eq_getElem]
  have hidx : arr.indexOf arr[i + 1] = i + 1 := List.indexOf_getElem hnd (i + 1) hi
  rw [hidx, if_pos (Nat.succ_ne_zero i), Nat.add_sub_cancel]
  exact List.getD_eq_getElem arr _ (Nat.lt_of_succ_lt hi)

/-- The four map entries of the final state at the key sitting at position
`idx` of a duplicate-free period-start array, expressed from the state
just before that key was processed. -/
lemma run_at_index (s : DocSession) (hnd : s.periodStartArray.Nodup) (idx : Nat)
    (hidx : idx < s.periodStartArray.length) :
    ((runSummarization s).sum_incomes (s.periodStartArray.get ⟨idx, hidx⟩) =
      sumValues (s.summationIncome (s.periodStartArray.get ⟨idx, hidx⟩))) ∧
    ((runSummarization s).sum_expense (s.periodStartArray.get ⟨idx, hidx⟩) =
      sumValues (s.summationExpense (s.periodStartArray.get ⟨idx, hidx⟩))) ∧
    ((runSummarization s).periodicBalance (s.periodStartArray.get ⟨idx, hidx⟩) =
      (if isFirstPeriod s.periodStartArray (s.periodStartArray.get ⟨idx, hidx⟩) then
        (s.openningBalance +
          sumValues (s.summationIncome (s.periodStartArray.get ⟨idx, hidx⟩))) -
          sumValues (s.summationExpense (s.periodStartArray.get ⟨idx, hidx⟩))
      else
        (((s.periodStartArray.take idx).foldl summarization s).periodicBalance
            (previousPeriod s.periodStartArray (s.periodStartArray.get ⟨idx, hidx⟩)) +
          sumValues (s.summationIncome (s.periodStartArray.get ⟨idx, hidx⟩))) -
          sumValues (s.summationExpense (s.periodStartArray.get ⟨idx, hidx⟩)))) ∧
    ((runSummarization s).periodicOpenningBalance
        (s.periodStartArray.get ⟨idx, hidx⟩) =
      (if isFirstPeriod s.periodStartArray (s.periodStartArray.get ⟨idx, hidx⟩) then
        s.openningBalance
      else
        ((s.periodStartArray.take idx).foldl summarization s).periodicBalance
          (previousPeriod s.periodStartArray
            (s.periodStartArray.get ⟨idx, hidx⟩)))) := by
  obtain ⟨hfOB, hfSI, hfSE, hfArr⟩ := foldl_frame (s.periodStartArray.take idx) s
  have hstep : (s.periodStartArray.take (idx + 1)).foldl summarization s =
      summarization ((s.periodStartArray.take idx).foldl summarization s)
        (s.periodStartArray.get ⟨idx, hidx⟩) :=
    foldl_take_succ s.periodStartArray idx hidx s
  have hdecomp : runSummarization s =
      (s.periodStartArray.drop (idx + 1)).foldl summarization
        (summarization ((s.periodStartArray.take idx).foldl summarization s)
          (s.periodStartArray.get ⟨idx, hidx⟩)) := by
    unfold runSummarization
    rw [foldl_decompose s.periodStartArray (idx + 1) s, hstep]
  have hnotin : s.periodStartArray.get ⟨idx, hidx⟩ ∉
      s.periodStartArray.drop (idx + 1) :=
    getElem_not_mem_drop s.periodStartArray hnd idx hidx
  obtain ⟨o1, o2, o3, o4⟩ :=
    foldl_other (s.periodStartArray.drop (idx + 1))
      (summarization ((s.periodStartArray.take idx).foldl summarization s)
        (s.periodStartArray.get ⟨idx, hidx⟩))
      (s.periodStartArray.get ⟨idx, hidx⟩) hnotin
  have hprev :
      isFirstPeriod ((s.periodStartArray.take idx).foldl summarization
          s).periodStartArray (s.periodStartArray.get ⟨idx, hidx⟩) = false →
      previousPeriod ((s.periodStartArray.take idx).foldl summarization
          s).periodStartArray (s.periodStartArray.get ⟨idx, hidx⟩) ≠
        s.periodStartArray.get ⟨idx, hidx⟩ := by
    rw [hfArr]
    exact fun hf =>
      prev_ne_of_not_first s.periodStartArray (s.periodStartArray.get ⟨idx, hidx⟩)
        hnd (List.get_mem s.periodStartArray idx hidx) hf
  obtain ⟨a1, a2, a3, a4⟩ :=
    summarization_at ((s.periodStartArray.take idx).foldl summarization s)
      (s.periodStartArray.get ⟨idx, hidx⟩) hprev
  rw [hfArr] at a3 a4
  rw [hfSI] at a1 a3
  rw [hfSE] at a2 a3
  rw [hfOB] at a3 a4
  exact ⟨by rw [hdecomp, o1, a1], by rw [hdecomp, o2, a2],
    by rw [hdecomp, o3, a3], by rw [hdecomp, o4, a4]⟩

/-- C1 counterexample: with period starts [2024-01-01, 2025-01-01] (ordered
and distinct) and an income of 3 in the first period, the second period
also satisfies the `isFirstPeriod` heuristic (any January 1st start), so
its opening balance is reset to the externally supplied balance 5 instead
of chaining to the first period's closing balance 8 — refuting the claim
that the opening balance of every period after the first equals the
periodic balance of the previous period. -/
theorem balance_chain_counterexample :
    ((runSummarization
      { openningBalance := 5
        summationIncome := fun p =>
          if p = { year := 2024, month := 1, day := 1 } then
            [{ transfer_type := "CASH", currency_id := 1, value := 3 }]
          else []
        summationExpense := fun _ => []
        periodStartArray := [{ year := 2024, month := 1, day := 1 },
          { year := 2025, month := 1, day := 1 }] }).periodicBalance
        { year := 2024, month := 1, day := 1 } = 8 ∧
    (runSummarization
      { openningBalance := 5
        summationIncome := fun p =>
          if p = { year := 2024, month := 1, day := 1 } then
            [{ transfer_type := "CASH", currency_id := 1, value := 3 }]
          else []
        summationExpense := fun _ => []
        periodStartArray := [{ year := 2024, month := 1, day := 1 },
          { year := 2025, month := 1, day := 1 }] }).periodicOpenningBalance
        { year := 2025, month := 1, day := 1 } = 5 ∧
    (runSummarization
      { openningBalance := 5
        summationIncome := fun p =>
          if p = { year := 2024, month := 1, day := 1 } then
            [{ transfer_type := "CASH", currency_id := 1, value := 3 }]
          else []
        summationExpense := fun _ => []
        periodStartArray := [{ year := 2024, month := 1, day := 1 },
          { year := 2025, month := 1, day := 1 }] }).periodicOpenningBalance
        { year := 2025, month := 1, day := 1 } ≠
      (runSummarization
      { openningBalance := 5
        summationIncome := fun p =>
          if p = { year := 2024, month := 1, day := 1 } then
            [{ transfer_type := "CASH", currency_id := 1, value := 3 }]
          else []
        summationExpense := fun _ => []
        periodStartArray := [{ year := 2024, month := 1, day := 1 },
          { year := 2025, month := 1, day := 1 }] }).periodicBalance
        { year := 2024, month := 1, day := 1 }) := by
  refine ⟨?_, ?_, ?_⟩ <;>
    norm_num [runSummarization, summarization, store, sumValues, previousPeriod,
      isFirstPeriod]

/-- C1 amended: over a duplicate-free ordered period-start array, the
final state of the summarization pass satisfies, for every period,
periodicBalance = periodicOpenningBalance + sum_incomes − sum_expense (and
the two sums are the totals of the period's summation lists); the first
period's opening balance is the externally supplied balance; and every
later period that the `isFirstPeriod` heuristic does not classify as a
first period has its opening balance equal to the periodicBalance of the
previous period (periods the heuristic classifies as first — e.g. any
January-1st start when the first period starts January 1st — are instead
reset to the external balance, as the counterexample shows). -/
theorem balance_invariant (s : DocSession) (hnd : s.periodStartArray.Nodup) :
    (∀ p ∈ s.periodStartArray,
      (runSummarization s).periodicBalance p =
        ((runSummarization s).periodicOpenningBalance p +
          (runSummarization s).sum_incomes p) -
          (runSummarization s).sum_expense p ∧
      (runSummarization s).sum_incomes p = sumValues (s.summationIncome p) ∧
      (runSummarization s).sum_expense p = sumValues (s.summationExpense p)) ∧
    (∀ reference rest, s.periodStartArray = reference :: rest →
      (runSummarization s).periodicOpenningBalance reference =
        s.openningBalance) ∧
    (∀ (i : Nat) (hi : i + 1 < s.periodStartArray.length),
      isFirstPeriod s.periodStartArray (s.periodStartArray.get ⟨i + 1, hi⟩) =
        false →
      (runSummarization s).periodicOpenningBalance
          (s.periodStartArray.get ⟨i + 1, hi⟩) =
        (runSummarization s).periodicBalance
          (s.periodStartArray.get ⟨i, Nat.lt_of_succ_lt hi⟩)) := by
  refine ⟨?_, ?_, ?_⟩
  · intro p hp
    have hidx : s.periodStartArray.indexOf p < s.periodStartArray.length :=
      List.indexOf_lt_length.2 hp
    have hpget : s.periodStartArray.get ⟨s.periodStartArray.indexOf p, hidx⟩ = p :=
      List.indexOf_get hidx
    obtain ⟨r1, r2, r3, r4⟩ := run_at_index s hnd (s.periodStartArray.indexOf p) hidx
    rw [hpget] at r1 r2 r3 r4
    refine ⟨?_, r1, r2⟩
    rw [r1, r2, r3, r4]
    split <;> rfl
  · intro reference rest h
    have hidx : 0 < s.periodStartArray.length := by rw [h]; simp
    obtain ⟨-, -, -, r4⟩ := run_at_index s hnd 0 hidx
    have hget : s.periodStartArray.get ⟨0, hidx⟩ = reference := by
      simp only [List.get_eq_getElem]
      rw [List.getElem_of_eq h]
      rfl
    rw [hget] at r4
    rw [r4, if_pos]
    have : isFirstPeriod s.periodStartArray reference = true := by
      rw [h]; exact isFirstPeriod_head reference rest
    exact this
  · intro i hi hfp
    obtain ⟨-, -, -, r4⟩ := run_at_index s hnd (i + 1) hi
    rw [r4, if_neg (by rw [hfp]; exact fun h => Bool.noConfusion h),
      previousPeriod_getElem s.periodStartArray hnd i hi]
    have hq : s.periodStartArray.get ⟨i, Nat.lt_of_succ_lt hi⟩ ∉
        s.periodStartArray.drop (i + 1) :=
      getElem_not_mem_drop s.periodStartArray hnd i (Nat.lt_of_succ_lt hi)
    have hrun : runSummarization s =
        (s.periodStartArray.drop (i + 1)).foldl summarization
          ((s.periodStartArray.take (i + 1)).foldl summarization s) := by
      unfold runSummarization
      exact foldl_decompose s.periodStartArray (i + 1) s
    rw [hrun]
    exact ((foldl_other (s.periodStartArray.drop (i + 1))
      ((s.periodStartArray.take (i + 1)).foldl summarization s)
      (s.periodStartArray.get ⟨i, Nat.lt_of_succ_lt hi⟩) hq).2.2.1).symm

/-- Witness for C1's amended statement on the spec's two-period scenario
(January opening 100, incomes 500/300, expenses 200/400). -/
theorem balance_invariant_witness :
    (∀ p ∈ specScenario.periodStartArray,
      (runSummarization specScenario).periodicBalance p =
        ((runSummarization specScenario).periodicOpenningBalance p +
          (runSummarization specScenario).sum_incomes p) -
          (runSummarization specScenario).sum_expense p ∧
      (runSummarization specScenario).sum_incomes p =
        sumValues (specScenario.summationIncome p) ∧
      (runSummarization specScenario).sum_expense p =
        sumValues (specScenario.summationExpense p)) ∧
    (∀ reference rest, specScenario.periodStartArray = reference :: rest →
      (runSummarization specScenario).periodicOpenningBalance reference =
        specScenario.openningBalance) ∧
    (∀ (i : Nat) (hi : i + 1 < specScenario.periodStartArray.length),
      isFirstPeriod specScenario.periodStartArray
          (specScenario.periodStartArray.get ⟨i + 1, hi⟩) = false →
      (runSummarization specScenario).periodicOpenningBalance
          (specScenario.periodStartArray.get ⟨i + 1, hi⟩) =
        (runSummarization specScenario).periodicBalance
          (specScenario.periodStartArray.get ⟨i, Nat.lt_of_succ_lt hi⟩)) :=
  balance_invariant specScenario (by decide)

end Theorems

end Cashflow
